import Mathlib

/-!
Shallow embedding of `packages/gatsby/src/utils/babel/babel-module-export-utils.ts`:
the named-export classifier predicates (`isNamedExportFunction`,
`isNamedExportVariable`, `isNamedExportDestructuredVariable`,
`isNamedExportSpecifier`, `isNamedExport`) and the
`RemoveNamedExportPropertiesVisitor` object-pattern rewriter, together with
theorems settling the specification claims about them.

The Babel AST node kinds the code discriminates on are modelled as a sum type
per structural position.  The code only ever tests a node's `type` discriminant
and reads the listed fields, so each model type quotients all node kinds the
code treats identically into a single constructor.
-/

/-- A Babel `Identifier` node: a bound name. -/
structure Identifier where
  name : String
deriving DecidableEq, Repr

/-- The `value` field of an `ObjectProperty`.  The source only ever
discriminates it with `isIdentifier(property.value)` /
`property.value.type === "Identifier"`, so every non-identifier value
(a renamed binding to a non-identifier, a nested destructuring pattern,
an assignment pattern, ...) is one constructor. -/
inductive PropValue where
  /-- The bound local name is a plain identifier. -/
  | identifier (id : Identifier)
  /-- Any other node kind (nested pattern, assignment pattern, ...). -/
  | nonIdentifier
deriving DecidableEq, Repr

/-- One entry of an `ObjectPattern`'s `properties` list:
`ObjectProperty | RestElement` in Babel. -/
inductive ObjectPatternProperty where
  /-- An `ObjectProperty`: `key` as written, `value` actually bound. -/
  | objectProperty (key : Identifier) (value : PropValue)
  /-- A `RestElement` (`...rest`). -/
  | restElement
deriving DecidableEq, Repr

/-- An `ObjectPattern` node: a destructuring target such as `{ a, b: c }`. -/
structure ObjectPattern where
  properties : List ObjectPatternProperty
deriving DecidableEq, Repr

/-- The `id` field of a `VariableDeclarator` (an `LVal` in Babel).  The code
discriminates `Identifier` and `ObjectPattern`; everything else
(array patterns, ...) is one constructor. -/
inductive BindingTarget where
  | identifier (id : Identifier)
  | objectPattern (pat : ObjectPattern)
  | otherTarget
deriving DecidableEq, Repr

/-- One entry of a `VariableDeclaration`'s `declarations` list.  The source
checks `declaration.type !== "VariableDeclarator"` on each entry, so the
model keeps a constructor for a non-declarator entry. -/
inductive DeclarationListEntry where
  | variableDeclarator (id : BindingTarget)
  | nonDeclaratorNode
deriving DecidableEq, Repr

/-- The optional `declaration` field of an `ExportNamedDeclaration`.  The code
discriminates `FunctionDeclaration` (with its optional `id`) and
`VariableDeclaration` (with its `declarations` list); every other declaration
kind (class, TS interface, ...) is one constructor. -/
inductive InnerDeclaration where
  | functionDeclaration (id : Option Identifier)
  | variableDeclaration (declarations : List DeclarationListEntry)
  | otherDeclaration
deriving DecidableEq, Repr

/-- The `exported` field of an `ExportSpecifier`:
`Identifier | StringLiteral` in Babel. -/
inductive ModuleExportName where
  | identifier (name : String)
  | stringLiteral (value : String)
deriving DecidableEq, Repr

/-- One entry of an `ExportNamedDeclaration`'s `specifiers` list:
`ExportSpecifier | ExportDefaultSpecifier | ExportNamespaceSpecifier`.
The code tests `isExportSpecifier(specifier)` before reading `exported`. -/
inductive SpecifierEntry where
  /-- `export { local }` / `export { local as exported }`. -/
  | exportSpecifier (localBinding : Identifier) (exported : ModuleExportName)
  /-- `export def from "..."` (an `ExportDefaultSpecifier`); `exported` is its identifier. -/
  | exportDefaultSpecifier (exported : Identifier)
  /-- `export * as ns from "..."` (an `ExportNamespaceSpecifier`). -/
  | exportNamespaceSpecifier (exported : Identifier)
deriving DecidableEq, Repr

/-- An `ExportNamedDeclaration` node: one `export ...` statement, with an
optional inner declaration and an ordered specifier list. -/
structure ExportNamedDeclaration where
  declaration : Option InnerDeclaration
  specifiers : List SpecifierEntry
deriving DecidableEq, Repr

/-- `isNamedExportFunction(node, name)`:
`node.declaration?.type === "FunctionDeclaration" && node.declaration.id?.name === name`. -/
def isNamedExportFunction (node : ExportNamedDeclaration) (name : String) : Bool :=
  match node.declaration with
  | some (.functionDeclaration (some id)) => id.name == name
  | _ => false

/-- `isNamedExportVariable(node, name)`.  The source guards
`node.declaration?.type !== "VariableDeclaration"`, then runs a `for ... of`
loop over `declarations` whose body returns on its first iteration in every
branch (`return false` on a non-declarator or non-identifier `id`, otherwise
`return declaration.id.name === name`), and returns `false` after the loop
(empty list). -/
def isNamedExportVariable (node : ExportNamedDeclaration) (name : String) : Bool :=
  match node.declaration with
  | some (.variableDeclaration declarations) =>
    match declarations with
    | [] => false
    | declaration :: _ =>
      match declaration with
      | .variableDeclarator (.identifier id) => id.name == name
      | .variableDeclarator _ => false
      | .nonDeclaratorNode => false
  | _ => false

/-- The outer `for ... of` loop of `isNamedExportDestructuredVariable` over
`node.declaration.declarations`.  For each entry it returns `false` on a
non-declarator or a non-`ObjectPattern` `id`; the inner loop over
`declaration.id.properties` returns on its first iteration when the list is
non-empty (`return false` unless the first property is an `ObjectProperty`
with an identifier `value`, otherwise `return property.value.name === name`).
When the property list is empty the inner loop body never runs and control
falls through to the next declarator; after the outer loop the function
returns `false`. -/
def destructuredDeclLoop (name : String) : List DeclarationListEntry → Bool
  | [] => false
  | declaration :: rest =>
    match declaration with
    | .nonDeclaratorNode => false
    | .variableDeclarator bindingId =>
      match bindingId with
      | .objectPattern pat =>
        match pat.properties with
        | [] => destructuredDeclLoop name rest
        | property :: _ =>
          match property with
          | .objectProperty _ (.identifier id) => id.name == name
          | _ => false
      | _ => false

/-- `isNamedExportDestructuredVariable(node, name)`: the
`node.declaration?.type !== "VariableDeclaration"` guard followed by the
declarator loop. -/
def isNamedExportDestructuredVariable (node : ExportNamedDeclaration)
    (name : String) : Bool :=
  match node.declaration with
  | some (.variableDeclaration declarations) => destructuredDeclLoop name declarations
  | _ => false

/-- `isNamedExportSpecifier(node, name)`:
`node.specifiers.some(s => isExportSpecifier(s) && isIdentifier(s.exported) && s.exported.name === name)`. -/
def isNamedExportSpecifier (node : ExportNamedDeclaration) (name : String) : Bool :=
  node.specifiers.any fun specifier =>
    match specifier with
    | .exportSpecifier _ (.identifier exportedName) => exportedName == name
    | _ => false

/-- `isNamedExport(node, name)`: the disjunction of the four elementary
predicates, in source order. -/
def isNamedExport (node : ExportNamedDeclaration) (name : String) : Bool :=
  isNamedExportFunction node name ||
  isNamedExportVariable node name ||
  isNamedExportDestructuredVariable node name ||
  isNamedExportSpecifier node name

/-- The removal condition of `RemoveNamedExportPropertiesVisitor.ObjectPattern`:
`property.type === "ObjectProperty" && property.value.type === "Identifier" &&
this.propertiesToRemove.includes(property.value.name)`. -/
def isRemovable (propertiesToRemove : List String)
    (property : ObjectPatternProperty) : Bool :=
  match property with
  | .objectProperty _ (.identifier id) => propertiesToRemove.contains id.name
  | _ => false

/-- The `for (let i = 0; i < objectPath.node.properties.length; i++)` loop of
the visitor's `ObjectPattern` callback, acting on the live property list:
`objectPath.get("properties." + i).remove()` splices the matched property out
of the array at index `i`, after which the loop increments `i` anyway.  The
loop condition re-reads the (shrinking) length each iteration. -/
def removeLoop (propertiesToRemove : List String) (i : Nat)
    (properties : List ObjectPatternProperty) : List ObjectPatternProperty :=
  if h : i < properties.length then
    if isRemovable propertiesToRemove properties[i] then
      removeLoop propertiesToRemove (i + 1) (properties.eraseIdx i)
    else
      removeLoop propertiesToRemove (i + 1) properties
  else
    properties
termination_by properties.length - i
decreasing_by
  · have := List.length_eraseIdx_of_lt h
    omega
  · omega

/-- One invocation of `RemoveNamedExportPropertiesVisitor.ObjectPattern` on a
pattern node, with removal state `propertiesToRemove`. -/
def removeNamedExportProperties (propertiesToRemove : List String)
    (pat : ObjectPattern) : ObjectPattern :=
  { properties := removeLoop propertiesToRemove 0 pat.properties }

/-- Structural restatement of `removeLoop` as a recursion on the suffix of the
property list not yet reached by the loop index: a match drops the current
property and — because the splice shifts the array while `i` still
increments — carries the immediately following property over unexamined. -/
def removeScan (propertiesToRemove : List String) :
    List ObjectPatternProperty → List ObjectPatternProperty
  | [] => []
  | p :: rest =>
    if isRemovable propertiesToRemove p then
      match rest with
      | [] => []
      | q :: rest' => q :: removeScan propertiesToRemove rest'
    else
      p :: removeScan propertiesToRemove rest

/-- The claim's reading of the destructured-variable predicate: only the first
declarator and, inside it, only the first property decide the match.
Stated from the spec's words, for comparison with
`isNamedExportDestructuredVariable`. -/
def firstDeclaratorFirstPropertyMatch (node : ExportNamedDeclaration)
    (name : String) : Bool :=
  match node.declaration with
  | some (.variableDeclaration
      (.variableDeclarator (.objectPattern
        ⟨.objectProperty _ (.identifier id) :: _⟩) :: _)) => id.name == name
  | _ => false

/-- `export function f() {}` -/
def exportFunctionF : ExportNamedDeclaration :=
  { declaration := some (.functionDeclaration (some ⟨"f"⟩)), specifiers := [] }

/-- An anonymous exported function declaration (no `id`). -/
def exportAnonymousFunction : ExportNamedDeclaration :=
  { declaration := some (.functionDeclaration none), specifiers := [] }

/-- `export let a, b` -/
def exportLetAB : ExportNamedDeclaration :=
  { declaration := some (.variableDeclaration
      [.variableDeclarator (.identifier ⟨"a"⟩),
       .variableDeclarator (.identifier ⟨"b"⟩)]),
    specifiers := [] }

/-- `export const { a, b: c } = obj` -/
def exportConstDestructuredABC : ExportNamedDeclaration :=
  { declaration := some (.variableDeclaration
      [.variableDeclarator (.objectPattern
        ⟨[.objectProperty ⟨"a"⟩ (.identifier ⟨"a"⟩),
          .objectProperty ⟨"b"⟩ (.identifier ⟨"c"⟩)]⟩)]),
    specifiers := [] }

/-- `export const {} = x, { a } = y` — a first declarator whose object pattern
is empty, followed by one whose first property binds `a`. -/
def exportEmptyThenA : ExportNamedDeclaration :=
  { declaration := some (.variableDeclaration
      [.variableDeclarator (.objectPattern ⟨[]⟩),
       .variableDeclarator (.objectPattern
         ⟨[.objectProperty ⟨"a"⟩ (.identifier ⟨"a"⟩)]⟩)]),
    specifiers := [] }

/-- `export { x, y as z }` -/
def exportSpecifiersXYZ : ExportNamedDeclaration :=
  { declaration := none,
    specifiers :=
      [.exportSpecifier ⟨"x"⟩ (.identifier "x"),
       .exportSpecifier ⟨"y"⟩ (.identifier "z")] }

/-- A specifier list whose entries are a namespace specifier and a default
specifier, both with exported name `a`, and no `ExportSpecifier`. -/
def exportNonSpecifierEntriesA : ExportNamedDeclaration :=
  { declaration := none,
    specifiers :=
      [.exportNamespaceSpecifier ⟨"a"⟩, .exportDefaultSpecifier ⟨"a"⟩] }

/-- The pattern of the visitor's own doc-comment example:
`export const { foo, bar: baz } = {}`. -/
def fooBarBazPattern : ObjectPattern :=
  ⟨[.objectProperty ⟨"foo"⟩ (.identifier ⟨"foo"⟩),
    .objectProperty ⟨"bar"⟩ (.identifier ⟨"baz"⟩)]⟩

/-- `{ a, b, c }` with each property binding its own name. -/
def patternABC : ObjectPattern :=
  ⟨[.objectProperty ⟨"a"⟩ (.identifier ⟨"a"⟩),
    .objectProperty ⟨"b"⟩ (.identifier ⟨"b"⟩),
    .objectProperty ⟨"c"⟩ (.identifier ⟨"c"⟩)]⟩

/-- `{ a, b }` with each property binding its own name. -/
def patternAB : ObjectPattern :=
  ⟨[.objectProperty ⟨"a"⟩ (.identifier ⟨"a"⟩),
    .objectProperty ⟨"b"⟩ (.identifier ⟨"b"⟩)]⟩

theorem eraseIdx_append_cons (kept : List ObjectPatternProperty)
    (p : ObjectPatternProperty) (rest : List ObjectPatternProperty) :
    (kept ++ p :: rest).eraseIdx kept.length = kept ++ rest := by
  induction kept with
  | nil => rfl
  | cons k kept ih => simpa [List.eraseIdx] using ih

theorem removeLoop_append (t : List String) :
    ∀ (n : Nat) (remaining kept : List ObjectPatternProperty),
      remaining.length ≤ n →
      removeLoop t kept.length (kept ++ remaining) = kept ++ removeScan t remaining := by
  intro n
  induction n with
  | zero =>
    intro remaining kept h
    have : remaining = [] := List.eq_nil_of_length_eq_zero (Nat.le_zero.mp h)
    subst this
    rw [removeLoop]
    simp [removeScan]
  | succ n ih =>
    intro remaining kept h
    match remaining with
    | [] =>
      rw [removeLoop]
      simp [removeScan]
    | p :: rest =>
      rw [removeLoop]
      have hlt : kept.length < (kept ++ p :: rest).length := by
        simp
      have hget : (kept ++ p :: rest)[kept.length] = p := by
        rw [List.getElem_append_right (Nat.le_refl _)]
        simp
      rw [dif_pos hlt, hget]
      by_cases hp : isRemovable t p = true
      · rw [if_pos hp, eraseIdx_append_cons]
        match rest with
        | [] =>
          rw [removeLoop]
          simp [removeScan, hp]
        | q :: rest' =>
          have step : kept.length + 1 = (kept ++ [q]).length := by simp
          have assoc : kept ++ q :: rest' = (kept ++ [q]) ++ rest' := by simp
          rw [step, assoc, ih rest' (kept ++ [q]) (by simp at h ⊢; omega)]
          simp [removeScan, hp]
      · rw [if_neg hp]
        have step : kept.length + 1 = (kept ++ [p]).length := by simp
        have assoc : kept ++ p :: rest = (kept ++ [p]) ++ rest := by simp
        rw [step, assoc, ih rest (kept ++ [p]) (by simp at h ⊢; omega)]
        conv_rhs => rw [removeScan.eq_def]
        simp [hp]

theorem removeLoop_zero (t : List String) (props : List ObjectPatternProperty) :
    removeLoop t 0 props = removeScan t props :=
  removeLoop_append t props.length props [] (Nat.le_refl _)

theorem removeScan_sublist (t : List String) :
    ∀ props : List ObjectPatternProperty, List.Sublist (removeScan t props) props
  | [] => by simp [removeScan]
  | [p] => by
    by_cases hp : isRemovable t p = true <;>
      simp [removeScan, hp]
  | p :: q :: rest' => by
    by_cases hp : isRemovable t p = true
    · simpa [removeScan, hp] using
        List.Sublist.cons p (List.Sublist.cons₂ q (removeScan_sublist t rest'))
    · simpa [removeScan, hp] using
        List.Sublist.cons₂ p (removeScan_sublist t (q :: rest'))

theorem removeScan_filter_nonmatching (t : List String) :
    ∀ props : List ObjectPatternProperty,
      (removeScan t props).filter (fun p => !isRemovable t p) =
        props.filter (fun p => !isRemovable t p)
  | [] => by simp [removeScan]
  | [p] => by
    by_cases hp : isRemovable t p = true <;>
      simp [removeScan, hp, List.filter_cons]
  | p :: q :: rest' => by
    by_cases hp : isRemovable t p = true
    · simp [removeScan, hp, List.filter_cons,
        removeScan_filter_nonmatching t rest']
    · simp [removeScan, hp, List.filter_cons,
        removeScan_filter_nonmatching t (q :: rest')]

theorem removeScan_of_no_match (t : List String) :
    ∀ props : List ObjectPatternProperty,
      (∀ p ∈ props, isRemovable t p = false) → removeScan t props = props
  | [] => by simp [removeScan]
  | [p] => by
    intro h
    simp [removeScan, h p (List.mem_cons_self p [])]
  | p :: q :: rest' => by
    intro h
    have hp : isRemovable t p = false := h p (by simp)
    have hrest := removeScan_of_no_match t (q :: rest')
      (fun r hr => h r (List.mem_cons_of_mem p hr))
    calc removeScan t (p :: q :: rest')
        = p :: removeScan t (q :: rest') := by simp [removeScan, hp]
      _ = p :: q :: rest' := by rw [hrest]

/-- Claim C1: `isNamedExport` is the logical OR of the four elementary
predicates (function-form, simple-variable-form, destructured-variable-form,
specifier-list-form): it returns `true` exactly when at least one of them
does on the same node and name. -/
theorem isNamedExport_is_or_of_four :
    ∀ (node : ExportNamedDeclaration) (name : String),
      isNamedExport node name = true ↔
        (isNamedExportFunction node name = true ∨
         isNamedExportVariable node name = true ∨
         isNamedExportDestructuredVariable node name = true ∨
         isNamedExportSpecifier node name = true) := by
  intro node name
  simp [isNamedExport, Bool.or_eq_true, or_assoc]

/-- Witness for C1 at a concrete input: `export function f() {}` is a named
export of `f` via the function-form predicate. -/
theorem isNamedExport_is_or_of_four_witness :
    isNamedExport exportFunctionF "f" = true :=
  (isNamedExport_is_or_of_four exportFunctionF "f").mpr (Or.inl (by decide))

/-- Claim C6: `isNamedExportFunction` returns `true` iff the node's inner
declaration is a function declaration whose `id` name equals the target name;
`export function f() {}` matches `f`, and an anonymous function declaration
(no `id`) matches no name. -/
theorem isNamedExportFunction_characterization :
    (∀ (node : ExportNamedDeclaration) (name : String),
        isNamedExportFunction node name = true ↔
          node.declaration =
            some (.functionDeclaration (some ⟨name⟩))) ∧
    isNamedExportFunction exportFunctionF "f" = true ∧
    (∀ (name : String) (specs : List SpecifierEntry),
        isNamedExportFunction ⟨some (.functionDeclaration none), specs⟩ name = false) := by
  refine ⟨?_, by decide, fun name specs => rfl⟩
  intro node name
  obtain ⟨d, specs⟩ := node
  match d with
  | none => simp [isNamedExportFunction]
  | some (.functionDeclaration none) => simp [isNamedExportFunction]
  | some (.functionDeclaration (some ⟨n⟩)) =>
    simp [isNamedExportFunction, Identifier.mk.injEq]
  | some (.variableDeclaration ds) => simp [isNamedExportFunction]
  | some .otherDeclaration => simp [isNamedExportFunction]

/-- Witness for C6 at a concrete input: the characterization applied to
`export function f() {}` and name `f`. -/
theorem isNamedExportFunction_characterization_witness :
    isNamedExportFunction exportFunctionF "f" = true :=
  (isNamedExportFunction_characterization.1 exportFunctionF "f").mpr rfl

/-- Claim C3: `isNamedExportVariable` returns `true` iff the inner declaration
is a variable declaration whose first declarator binds a plain identifier with
the target name; only the first declarator is consulted, so on
`export let a, b` the name `a` matches and `b` does not. -/
theorem isNamedExportVariable_first_declarator_only :
    (∀ (node : ExportNamedDeclaration) (name : String),
        isNamedExportVariable node name = true ↔
          ∃ rest : List DeclarationListEntry,
            node.declaration = some (.variableDeclaration
              (.variableDeclarator (.identifier ⟨name⟩) :: rest))) ∧
    isNamedExportVariable exportLetAB "a" = true ∧
    isNamedExportVariable exportLetAB "b" = false := by
  refine ⟨?_, by decide, by decide⟩
  intro node name
  obtain ⟨d, specs⟩ := node
  match d with
  | none => simp [isNamedExportVariable]
  | some (.functionDeclaration i) => simp [isNamedExportVariable]
  | some .otherDeclaration => simp [isNamedExportVariable]
  | some (.variableDeclaration []) => simp [isNamedExportVariable]
  | some (.variableDeclaration (.nonDeclaratorNode :: rest)) =>
    simp [isNamedExportVariable]
  | some (.variableDeclaration (.variableDeclarator (.identifier ⟨n⟩) :: rest)) =>
    simp [isNamedExportVariable, Identifier.mk.injEq]
  | some (.variableDeclaration (.variableDeclarator (.objectPattern p) :: rest)) =>
    simp [isNamedExportVariable]
  | some (.variableDeclaration (.variableDeclarator .otherTarget :: rest)) =>
    simp [isNamedExportVariable]

/-- Witness for C3 at a concrete input: the characterization applied to
`export let a, b` and name `a`. -/
theorem isNamedExportVariable_first_declarator_only_witness :
    isNamedExportVariable exportLetAB "a" = true :=
  (isNamedExportVariable_first_declarator_only.1 exportLetAB "a").mpr
    ⟨[.variableDeclarator (.identifier ⟨"b"⟩)], rfl⟩

/-- Claim C5: `isNamedExportSpecifier` returns `true` iff some entry anywhere
in the specifier list is an `ExportSpecifier` whose exported identifier name
equals the target; matching is against the exported name, never the local
name, so `export { x, y as z }` matches `x` and `z` but not `y`. -/
theorem isNamedExportSpecifier_scans_whole_list :
    (∀ (node : ExportNamedDeclaration) (name : String),
        isNamedExportSpecifier node name = true ↔
          ∃ localBinding : Identifier,
            SpecifierEntry.exportSpecifier localBinding (.identifier name) ∈
              node.specifiers) ∧
    isNamedExportSpecifier exportSpecifiersXYZ "x" = true ∧
    isNamedExportSpecifier exportSpecifiersXYZ "z" = true ∧
    isNamedExportSpecifier exportSpecifiersXYZ "y" = false := by
  refine ⟨?_, by decide, by decide, by decide⟩
  intro node name
  rw [isNamedExportSpecifier, List.any_eq_true]
  constructor
  · rintro ⟨s, hs, hmatch⟩
    match s with
    | .exportSpecifier l (.identifier en) =>
      simp only [beq_iff_eq] at hmatch
      exact ⟨l, hmatch ▸ hs⟩
    | .exportSpecifier l (.stringLiteral v) => simp at hmatch
    | .exportDefaultSpecifier e => simp at hmatch
    | .exportNamespaceSpecifier e => simp at hmatch
  · rintro ⟨l, hl⟩
    exact ⟨_, hl, by simp⟩

/-- Witness for C5 at a concrete input: the characterization applied to
`export { x, y as z }` and name `z`. -/
theorem isNamedExportSpecifier_scans_whole_list_witness :
    isNamedExportSpecifier exportSpecifiersXYZ "z" = true :=
  (isNamedExportSpecifier_scans_whole_list.1 exportSpecifiersXYZ "z").mpr
    ⟨⟨"y"⟩, by simp [exportSpecifiersXYZ]⟩

/-- Claim C7: every classifier predicate is total (it is a Lean function into
`Bool`, so it can neither throw nor diverge) and returns `false` on every
shape it does not recognize: a missing inner declaration, an inner declaration
of the wrong kind, an empty declarator list, and an empty specifier list all
yield `false` rather than a fault. -/
theorem classifiers_false_on_unrecognized_shapes :
    ∀ (node : ExportNamedDeclaration) (name : String),
      (node.declaration = none →
        isNamedExportFunction node name = false ∧
        isNamedExportVariable node name = false ∧
        isNamedExportDestructuredVariable node name = false) ∧
      (node.declaration = some .otherDeclaration →
        isNamedExportFunction node name = false ∧
        isNamedExportVariable node name = false ∧
        isNamedExportDestructuredVariable node name = false) ∧
      (∀ i, node.declaration = some (.functionDeclaration i) →
        isNamedExportVariable node name = false ∧
        isNamedExportDestructuredVariable node name = false) ∧
      (∀ ds, node.declaration = some (.variableDeclaration ds) →
        isNamedExportFunction node name = false) ∧
      (node.declaration = some (.variableDeclaration []) →
        isNamedExportVariable node name = false ∧
        isNamedExportDestructuredVariable node name = false) ∧
      (node.specifiers = [] → isNamedExportSpecifier node name = false) ∧
      (node.declaration = none → node.specifiers = [] →
        isNamedExport node name = false) := by
  intro node name
  obtain ⟨d, specs⟩ := node
  refine ⟨?_, ?_, ?_, ?_, ?_, ?_, ?_⟩
  · rintro rfl
    exact ⟨rfl, rfl, rfl⟩
  · rintro rfl
    exact ⟨rfl, rfl, rfl⟩
  · rintro i rfl
    exact ⟨rfl, rfl⟩
  · rintro ds rfl
    rfl
  · rintro rfl
    exact ⟨rfl, rfl⟩
  · rintro rfl
    rfl
  · rintro rfl rfl
    rfl

/-- Witness for C7 at a concrete input: a bare node with no inner declaration
and no specifiers is rejected by the combinator. -/
theorem classifiers_false_on_unrecognized_shapes_witness :
    isNamedExport ⟨none, []⟩ "x" = false :=
  (classifiers_false_on_unrecognized_shapes ⟨none, []⟩ "x").2.2.2.2.2.2 rfl rfl

/-- Claim C10: a specifier-list entry that is not an `ExportSpecifier`
(a namespace or default specifier) never contributes to
`isNamedExportSpecifier`: inserting such an entry anywhere in the list leaves
the predicate's value unchanged, and a list holding only such entries with
exported name `a` does not match `a`. -/
theorem nonExportSpecifier_entries_never_match :
    (∀ (d : Option InnerDeclaration) (name : String)
        (pre post : List SpecifierEntry) (s : SpecifierEntry),
        (∀ l e, s ≠ .exportSpecifier l e) →
        isNamedExportSpecifier ⟨d, pre ++ s :: post⟩ name =
          isNamedExportSpecifier ⟨d, pre ++ post⟩ name) ∧
    isNamedExportSpecifier exportNonSpecifierEntriesA "a" = false := by
  refine ⟨?_, by decide⟩
  intro d name pre post s hs
  rcases s with ⟨l, e⟩ | e | e
  · exact absurd rfl (hs l e)
  · simp [isNamedExportSpecifier, List.any_append, List.any_cons]
  · simp [isNamedExportSpecifier, List.any_append, List.any_cons]

/-- Witness for C10 at a concrete input: inserting a namespace specifier
exporting `a` into an empty list does not make the predicate match `a`. -/
theorem nonExportSpecifier_entries_never_match_witness :
    isNamedExportSpecifier ⟨none, [] ++ SpecifierEntry.exportNamespaceSpecifier ⟨"a"⟩ :: []⟩ "a" =
      isNamedExportSpecifier ⟨none, [] ++ []⟩ "a" :=
  nonExportSpecifier_entries_never_match.1 none "a" [] []
    (SpecifierEntry.exportNamespaceSpecifier ⟨"a"⟩) (fun l e h => by cases h)

/-- Claim C9: one Remover pass deletes only matching properties.  The result
is a subsequence of the original property list (so survivors keep their
relative order and nothing is added); every property that is not an
`ObjectProperty` with an identifier value whose name is in the removal set
survives the pass (the non-matching properties of the result are exactly
those of the input, in order); and a removal set matching no property leaves
the pattern structurally unchanged. -/
theorem remover_deletes_only_matching_properties :
    (∀ (toRemove : List String) (pat : ObjectPattern),
        List.Sublist (removeNamedExportProperties toRemove pat).properties
          pat.properties) ∧
    (∀ (toRemove : List String) (pat : ObjectPattern),
        (removeNamedExportProperties toRemove pat).properties.filter
            (fun p => !isRemovable toRemove p) =
          pat.properties.filter (fun p => !isRemovable toRemove p)) ∧
    (∀ (toRemove : List String) (pat : ObjectPattern),
        (∀ p ∈ pat.properties, isRemovable toRemove p = false) →
        removeNamedExportProperties toRemove pat = pat) := by
  refine ⟨?_, ?_, ?_⟩
  · intro toRemove pat
    simp only [removeNamedExportProperties, removeLoop_zero]
    exact removeScan_sublist toRemove pat.properties
  · intro toRemove pat
    simp only [removeNamedExportProperties, removeLoop_zero]
    exact removeScan_filter_nonmatching toRemove pat.properties
  · intro toRemove pat h
    obtain ⟨props⟩ := pat
    simp only [removeNamedExportProperties, removeLoop_zero]
    rw [removeScan_of_no_match toRemove props h]

/-- Witness for C9 at a concrete input: removing names absent from
`{ a, b }` leaves the pattern unchanged. -/
theorem remover_deletes_only_matching_properties_witness :
    removeNamedExportProperties ["zzz"] patternAB = patternAB :=
  remover_deletes_only_matching_properties.2.2 ["zzz"] patternAB (by decide)

/-- Claim C2 (failing input): on the visitor's own doc-comment example
`export const { foo, bar: baz } = {}` with removal set `[foo, baz]`, the pass
removes `foo` but leaves `bar: baz` — a still-removable property — because the
splice at index `i` shifts the next property into position `i` while the loop
increments `i` anyway.  On the claim's non-adjacent example `{ a, b, c }`
minus `{a, c}` the pass does produce `{ b }`. -/
theorem remover_skips_property_after_removed_one :
    removeNamedExportProperties ["foo", "baz"] fooBarBazPattern =
      ⟨[.objectProperty ⟨"bar"⟩ (.identifier ⟨"baz"⟩)]⟩ ∧
    isRemovable ["foo", "baz"]
      (.objectProperty ⟨"bar"⟩ (.identifier ⟨"baz"⟩)) = true ∧
    removeNamedExportProperties ["a", "c"] patternABC =
      ⟨[.objectProperty ⟨"b"⟩ (.identifier ⟨"b"⟩)]⟩ := by
  refine ⟨?_, by decide, ?_⟩ <;>
  · simp only [removeNamedExportProperties, removeLoop_zero]
    decide

/-- Claim C8 (failing input): the Remover is not idempotent.  On `{ a, b }`
with removal set `[a, b]` the first pass removes `a` and skips `b`, so the
second pass removes `b`: running the pass twice differs from running it
once. -/
theorem remover_second_pass_not_noop :
    removeNamedExportProperties ["a", "b"]
        (removeNamedExportProperties ["a", "b"] patternAB) ≠
      removeNamedExportProperties ["a", "b"] patternAB := by
  simp only [removeNamedExportProperties, removeLoop_zero]
  decide

theorem destructuredDeclLoop_eq_true_iff (name : String) :
    ∀ decls : List DeclarationListEntry,
      destructuredDeclLoop name decls = true ↔
        ∃ (skipped : List DeclarationListEntry) (key : Identifier)
          (prest : List ObjectPatternProperty) (rest : List DeclarationListEntry),
          decls = skipped ++ DeclarationListEntry.variableDeclarator
              (.objectPattern ⟨.objectProperty key (.identifier ⟨name⟩) :: prest⟩) :: rest ∧
          ∀ d ∈ skipped, d =
            DeclarationListEntry.variableDeclarator (.objectPattern ⟨[]⟩)
  | [] => by
    simp only [destructuredDeclLoop, Bool.false_eq_true, false_iff]
    rintro ⟨skipped, key, prest, rest, heq, -⟩
    cases skipped <;> simp at heq
  | .nonDeclaratorNode :: ds => by
    simp only [destructuredDeclLoop, Bool.false_eq_true, false_iff]
    rintro ⟨skipped, key, prest, rest, heq, hall⟩
    cases skipped with
    | nil => simp at heq
    | cons s sk =>
      rw [List.cons_append, List.cons.injEq] at heq
      have hs := hall s (by simp)
      rw [← heq.1] at hs
      cases hs
  | .variableDeclarator (.identifier i) :: ds => by
    simp only [destructuredDeclLoop, Bool.false_eq_true, false_iff]
    rintro ⟨skipped, key, prest, rest, heq, hall⟩
    cases skipped with
    | nil => simp at heq
    | cons s sk =>
      rw [List.cons_append, List.cons.injEq] at heq
      have hs := hall s (by simp)
      rw [← heq.1] at hs
      cases hs
  | .variableDeclarator .otherTarget :: ds => by
    simp only [destructuredDeclLoop, Bool.false_eq_true, false_iff]
    rintro ⟨skipped, key, prest, rest, heq, hall⟩
    cases skipped with
    | nil => simp at heq
    | cons s sk =>
      rw [List.cons_append, List.cons.injEq] at heq
      have hs := hall s (by simp)
      rw [← heq.1] at hs
      cases hs
  | .variableDeclarator (.objectPattern ⟨[]⟩) :: ds => by
    have ih := destructuredDeclLoop_eq_true_iff name ds
    simp only [destructuredDeclLoop]
    rw [ih]
    constructor
    · rintro ⟨sk, key, prest, rest, heq, hall⟩
      refine ⟨.variableDeclarator (.objectPattern ⟨[]⟩) :: sk, key, prest, rest,
        by rw [List.cons_append, heq], ?_⟩
      intro d hd
      rcases List.mem_cons.mp hd with h | h
      · exact h
      · exact hall d h
    · rintro ⟨sk, key, prest, rest, heq, hall⟩
      cases sk with
      | nil => simp at heq
      | cons s sk' =>
        rw [List.cons_append, List.cons.injEq] at heq
        refine ⟨sk', key, prest, rest, heq.2, fun d hd => hall d (by simp [hd])⟩
  | .variableDeclarator (.objectPattern ⟨.objectProperty key' (.identifier i) :: ps⟩) :: ds => by
    obtain ⟨n⟩ := i
    simp only [destructuredDeclLoop, beq_iff_eq]
    constructor
    · intro h
      subst h
      exact ⟨[], key', ps, ds, rfl, by simp⟩
    · rintro ⟨sk, key, prest, rest, heq, hall⟩
      cases sk with
      | nil =>
        rw [List.nil_append, List.cons.injEq] at heq
        have := heq.1
        simp only [DeclarationListEntry.variableDeclarator.injEq,
          BindingTarget.objectPattern.injEq, ObjectPattern.mk.injEq,
          List.cons.injEq, ObjectPatternProperty.objectProperty.injEq,
          PropValue.identifier.injEq, Identifier.mk.injEq] at this
        exact this.1.2
      | cons s sk' =>
        rw [List.cons_append, List.cons.injEq] at heq
        have hs := hall s (by simp)
        rw [← heq.1] at hs
        simp at hs
  | .variableDeclarator (.objectPattern ⟨.objectProperty key' .nonIdentifier :: ps⟩) :: ds => by
    simp only [destructuredDeclLoop, Bool.false_eq_true, false_iff]
    rintro ⟨sk, key, prest, rest, heq, hall⟩
    cases sk with
    | nil => simp at heq
    | cons s sk' =>
      rw [List.cons_append, List.cons.injEq] at heq
      have hs := hall s (by simp)
      rw [← heq.1] at hs
      simp at hs
  | .variableDeclarator (.objectPattern ⟨.restElement :: ps⟩) :: ds => by
    simp only [destructuredDeclLoop, Bool.false_eq_true, false_iff]
    rintro ⟨sk, key, prest, rest, heq, hall⟩
    cases sk with
    | nil => simp at heq
    | cons s sk' =>
      rw [List.cons_append, List.cons.injEq] at heq
      have hs := hall s (by simp)
      rw [← heq.1] at hs
      simp at hs

/-- Claim C4 (counterexample): the claim's "only the first declarator is ever
consulted" reading is false.  On `export const {} = x, { a } = y` — a first
declarator binding an *empty* object pattern — the first-declarator-first-
property reading yields no match, yet `isNamedExportDestructuredVariable`
returns `true` for `a`: the inner property loop of an empty pattern never
runs, so the outer loop falls through to the second declarator. -/
theorem destructured_first_declarator_only_counterexample :
    isNamedExportDestructuredVariable exportEmptyThenA "a" = true ∧
    firstDeclaratorFirstPropertyMatch exportEmptyThenA "a" = false := by
  decide

/-- Claim C4 (amended): `isNamedExportDestructuredVariable` returns `true` iff
the inner declaration is a variable declaration whose declarator list starts
with zero or more declarators binding *empty* object patterns — which are
skipped — followed by a declarator whose object pattern's first property is an
`ObjectProperty` binding a plain identifier with the target name.  Only the
first property of that deciding declarator is consulted, a first property
whose value is not a plain identifier makes the predicate false, and on
`export const { a, b: c } = obj` the name `a` matches while `c` does not. -/
theorem isNamedExportDestructuredVariable_amended :
    (∀ (node : ExportNamedDeclaration) (name : String),
        isNamedExportDestructuredVariable node name = true ↔
          ∃ (decls skipped : List DeclarationListEntry) (key : Identifier)
            (prest : List ObjectPatternProperty) (rest : List DeclarationListEntry),
            node.declaration = some (.variableDeclaration decls) ∧
            decls = skipped ++ DeclarationListEntry.variableDeclarator
                (.objectPattern
                  ⟨.objectProperty key (.identifier ⟨name⟩) :: prest⟩) :: rest ∧
            ∀ d ∈ skipped, d =
              DeclarationListEntry.variableDeclarator (.objectPattern ⟨[]⟩)) ∧
    isNamedExportDestructuredVariable exportConstDestructuredABC "a" = true ∧
    isNamedExportDestructuredVariable exportConstDestructuredABC "c" = false := by
  refine ⟨?_, by decide, by decide⟩
  intro node name
  obtain ⟨d, specs⟩ := node
  match d with
  | none =>
    simp [isNamedExportDestructuredVariable]
  | some (.functionDeclaration i) =>
    simp [isNamedExportDestructuredVariable]
  | some .otherDeclaration =>
    simp [isNamedExportDestructuredVariable]
  | some (.variableDeclaration decls) =>
    have h := destructuredDeclLoop_eq_true_iff name decls
    simp only [isNamedExportDestructuredVariable]
    rw [h]
    constructor
    · rintro ⟨skipped, key, prest, rest, heq, hall⟩
      exact ⟨decls, skipped, key, prest, rest, rfl, heq, hall⟩
    · rintro ⟨decls', skipped, key, prest, rest, hsome, heq, hall⟩
      obtain rfl : decls = decls' := by
        injection hsome with h1
        injection h1
      exact ⟨skipped, key, prest, rest, heq, hall⟩

/-- Witness for the amended C4 at a concrete input: the characterization
applied to `export const {} = x, { a } = y` and name `a`. -/
theorem isNamedExportDestructuredVariable_amended_witness :
    isNamedExportDestructuredVariable exportEmptyThenA "a" = true :=
  (isNamedExportDestructuredVariable_amended.1 exportEmptyThenA "a").mpr
    ⟨[.variableDeclarator (.objectPattern ⟨[]⟩),
      .variableDeclarator (.objectPattern ⟨[.objectProperty ⟨"a"⟩ (.identifier ⟨"a"⟩)]⟩)],
     [.variableDeclarator (.objectPattern ⟨[]⟩)], ⟨"a"⟩, [], [], rfl, rfl,
     by simp⟩
